import Mathlib

/-!
Verification development for the ccbot repository (Telegram to terminal-agent
bridge).  Each Python function relevant to the checked properties is given a
shallow embedding as an executable Lean definition, translated from the
source file named in its doc comment.  File contents are modelled as lists
of characters; byte offsets of the source become character offsets (the file
is only ever appended to or truncated, so all offset comparisons and
arithmetic are invariant under this change of unit).  Provider- and
JSON-dependent parsing steps are parameters of the embeddings: the theorems
hold for every parse function, and witnesses instantiate them with concrete
ones.
-/

namespace Ccbot

/-! ## File model shared by the event-log and transcript readers

Python text-file iteration (`async for line in f`) yields chunks split after
each newline character; the final chunk, if it does not end in a newline, is
yielded as well.  `f.tell()` after reading a chunk is the running total of
chunk lengths added to the start offset.  Python `str.strip()` is modelled
by `pyStrip` (whitespace removal at both ends). -/

/-- Characters removed by Python `str.strip()` at both ends (restricted to
the ASCII whitespace the modelled files contain). -/
def pyStripChars (l : List Char) : List Char :=
  ((l.dropWhile Char.isWhitespace).reverse.dropWhile Char.isWhitespace).reverse

/-- Python `str.strip()` on a string value. -/
def pyStrip (s : String) : String :=
  String.mk (pyStripChars s.data)

/-- Helper of `splitChunks`: accumulates the current (reversed) partial line
and emits a chunk at each newline; a trailing chunk without newline is
emitted at end of input. -/
def splitChunksAux : List Char → List Char → List (List Char)
  | [], acc => if acc.isEmpty then [] else [acc.reverse]
  | c :: rest, acc =>
    if c = '\n' then (acc.reverse ++ ['\n']) :: splitChunksAux rest []
    else splitChunksAux rest (c :: acc)

/-- Split a character list into line chunks, each chunk ending with a newline
except possibly the last.  Models Python text-file line iteration. -/
def splitChunks (l : List Char) : List (List Char) :=
  splitChunksAux l []

theorem splitChunks_nil : splitChunks [] = [] := rfl

theorem splitChunksAux_line (line rest acc : List Char) (h : '\n' ∉ line) :
    splitChunksAux (line ++ '\n' :: rest) acc
      = (acc.reverse ++ line ++ ['\n']) :: splitChunksAux rest [] := by
  induction line generalizing acc with
  | nil => simp [splitChunksAux]
  | cons c cs ih =>
    have hc : c ≠ '\n' := by
      intro hEq
      exact h (by simp [hEq])
    have hcs : '\n' ∉ cs := fun hm => h (List.mem_cons_of_mem _ hm)
    simp only [List.cons_append, splitChunksAux, if_neg hc]
    have := ih (c :: acc) hcs
    simp only [List.append_eq] at this ⊢
    rw [this]
    simp

/-- When the list starts with a newline-free line followed by a newline, the
first chunk is exactly that line with its newline. -/
theorem splitChunks_line (line rest : List Char) (h : '\n' ∉ line) :
    splitChunks (line ++ '\n' :: rest)
      = (line ++ ['\n']) :: splitChunks rest := by
  unfold splitChunks
  rw [splitChunksAux_line line rest [] h]
  simp

/-! ## Hook-event reader (src/ccbot/session_monitor.py, `_read_hook_events`)

The reader seeks to the stored events offset (resetting it to 0 when it
exceeds the current file size), then iterates the remaining lines: a blank
line advances the offset; a line whose JSON decode fails is skipped while
advancing the offset; a decoded line produces one `HookEvent` delivered to
the callback, and the offset advances past it.  The JSON decode together
with the `HookEvent` construction from the decoded fields is abstracted as a
parameter `parse : String → Option ε`, applied to the stripped line exactly
as the source applies `json.loads` to `line.strip()`. -/

/-- Loop body of `_read_hook_events` over the line chunks after the seek
position.  Returns the delivered events in delivery order and the final
events offset. -/
def readHookChunks (parse : String → Option ε) :
    List (List Char) → Nat → List ε × Nat
  | [], off => ([], off)
  | chunk :: rest, off =>
    let tell := off + chunk.length
    let line := pyStrip (String.mk chunk)
    if line = "" then readHookChunks parse rest tell
    else
      match parse line with
      | none => readHookChunks parse rest tell
      | some e =>
        let p := readHookChunks parse rest tell
        (e :: p.1, p.2)

/-- One invocation of `_read_hook_events` on file contents `file` starting
from events offset `offset`: truncation check, seek, then the line loop. -/
def readHookEvents (parse : String → Option ε) (file : List Char)
    (offset : Nat) : List ε × Nat :=
  let fileSize := file.length
  let start := if offset > fileSize then 0 else offset
  readHookChunks parse (splitChunks (List.drop start file)) start

/-- Events offset of a freshly constructed monitor.  `SessionMonitor.__init__`
(src/ccbot/session_monitor.py line 113) sets `self._events_offset = 0`
unconditionally; neither `MonitorState.load()` nor any other code path
restores a previously persisted value into it. -/
def initEventsOffset : Nat := 0

/-- Encode a list of appended log lines as file contents: each line followed
by one newline, as `_write_event` appends `event_line + "\n"`. -/
def encodeLines : List String → List Char
  | [] => []
  | s :: rest => s.data ++ '\n' :: encodeLines rest

theorem readHookEvents_zero (parse : String → Option ε) (file : List Char) :
    readHookEvents parse file 0
      = readHookChunks parse (splitChunks file) 0 := by
  simp [readHookEvents]

theorem readHookEvents_no_trunc (parse : String → Option ε)
    (file : List Char) (offset : Nat) (h : offset ≤ file.length) :
    readHookEvents parse file offset
      = readHookChunks parse (splitChunks (List.drop offset file)) offset := by
  simp only [readHookEvents]
  rw [if_neg (by omega)]

/-! ## Transcript reader (src/ccbot/session_monitor.py, `_read_new_lines`)

The incremental-read path: detect truncation (stored offset beyond current
file size) and reset the offset to 0; seek; then advance a `safe_offset`
only past lines that parse successfully (via the provider's
`parse_transcript_line`, abstracted as `parse`, applied to the raw chunk
including its newline) or are blank; a non-empty line that fails to parse
stops the read without advancing `safe_offset`. -/

/-- Loop body of `_read_new_lines`: walks the chunks past the seek position
carrying the running `tell` position and the `safe_offset`; returns the
parsed entries and the final `safe_offset`. -/
def readTransChunks (parse : String → Option δ) :
    List (List Char) → Nat → Nat → List δ × Nat
  | [], _tell, safe => ([], safe)
  | chunk :: rest, tell, safe =>
    let tell' := tell + chunk.length
    match parse (String.mk chunk) with
    | some d =>
      let p := readTransChunks parse rest tell' tell'
      (d :: p.1, p.2)
    | none =>
      if pyStrip (String.mk chunk) = "" then readTransChunks parse rest tell' tell'
      else ([], safe)

/-- One invocation of `_read_new_lines` (incremental-read providers) on file
contents `file` with stored offset `offset`: returns the newly parsed
entries and the updated `last_byte_offset`. -/
def readNewLines (parse : String → Option δ) (file : List Char)
    (offset : Nat) : List δ × Nat :=
  let fileSize := file.length
  let start := if offset > fileSize then 0 else offset
  readTransChunks parse (splitChunks (List.drop start file)) start start

theorem readNewLines_no_trunc (parse : String → Option δ)
    (file : List Char) (offset : Nat) (h : offset ≤ file.length) :
    readNewLines parse file offset
      = readTransChunks parse (splitChunks (List.drop offset file))
          offset offset := by
  simp only [readNewLines]
  rw [if_neg (by omega)]

theorem readNewLines_trunc (parse : String → Option δ)
    (file : List Char) (offset : Nat) (h : file.length < offset) :
    readNewLines parse file offset = readNewLines parse file 0 := by
  simp only [readNewLines]
  rw [if_pos (by omega)]
  simp

/-! ## Supporting lemmas for the two readers -/

/-- A log line together with the event it decodes to: the line is
newline-free, non-blank after stripping, and parses to exactly that event. -/
def GoodEventLine (parse : String → Option ε) (p : String × ε) : Prop :=
  '\n' ∉ p.1.data ∧ pyStrip (p.1 ++ "\n") ≠ "" ∧
    parse (pyStrip (p.1 ++ "\n")) = some p.2

instance (parse : String → Option ε) [DecidableEq ε] (p : String × ε) :
    Decidable (GoodEventLine parse p) := by
  unfold GoodEventLine
  infer_instance

theorem stringMk_data_newline (s : String) :
    String.mk (s.data ++ ['\n']) = s ++ "\n" := by
  cases s
  rfl

theorem encodeLines_append (a b : List String) :
    encodeLines (a ++ b) = encodeLines a ++ encodeLines b := by
  induction a with
  | nil => simp [encodeLines]
  | cons s rest ih => simp [encodeLines, ih]

theorem splitChunks_encodeLines (names : List String)
    (h : ∀ s ∈ names, '\n' ∉ s.data) :
    splitChunks (encodeLines names) = names.map (fun s => s.data ++ ['\n']) := by
  induction names with
  | nil => simp [encodeLines, splitChunks_nil]
  | cons s rest ih =>
    have hs : '\n' ∉ s.data := h s (List.mem_cons_self s rest)
    have hrest : ∀ t ∈ rest, '\n' ∉ t.data :=
      fun t ht => h t (List.mem_cons_of_mem _ ht)
    simp only [encodeLines, List.map_cons]
    rw [splitChunks_line s.data (encodeLines rest) hs, ih hrest]

theorem readHookChunks_goodLines (parse : String → Option ε)
    (ls : List (String × ε)) (off : Nat)
    (H : ∀ p ∈ ls, GoodEventLine parse p) :
    readHookChunks parse (ls.map (fun p => p.1.data ++ ['\n'])) off
      = (ls.map Prod.snd, off + (encodeLines (ls.map Prod.fst)).length) := by
  induction ls generalizing off with
  | nil => simp [readHookChunks, encodeLines]
  | cons p rest ih =>
    obtain ⟨-, hblank, hparse⟩ := H p (List.mem_cons_self p rest)
    have hrest : ∀ q ∈ rest, GoodEventLine parse q :=
      fun q hq => H q (List.mem_cons_of_mem _ hq)
    simp only [List.map_cons, readHookChunks, stringMk_data_newline]
    rw [if_neg hblank, hparse, ih _ hrest]
    simp only [encodeLines, List.length_append, List.length_cons, List.length_nil,
      Prod.mk.injEq]
    exact ⟨trivial, by omega⟩

/-- The maximal advance of `safe_offset` in a transcript read: the summed
length of the leading chunks that either parse or are blank, stopping at the
first non-blank chunk that fails to parse. -/
def transAdvance (parse : String → Option δ) : List (List Char) → Nat
  | [] => 0
  | chunk :: rest =>
    match parse (String.mk chunk) with
    | some _ => chunk.length + transAdvance parse rest
    | none =>
      if pyStrip (String.mk chunk) = "" then chunk.length + transAdvance parse rest
      else 0

/-- The entries produced by a transcript read: the parsed values of the
leading chunks up to the first non-blank chunk that fails to parse. -/
def transEntries (parse : String → Option δ) : List (List Char) → List δ
  | [] => []
  | chunk :: rest =>
    match parse (String.mk chunk) with
    | some d => d :: transEntries parse rest
    | none =>
      if pyStrip (String.mk chunk) = "" then transEntries parse rest
      else []

theorem readTransChunks_characterization (parse : String → Option δ)
    (chunks : List (List Char)) (t : Nat) :
    readTransChunks parse chunks t t
      = (transEntries parse chunks, t + transAdvance parse chunks) := by
  induction chunks generalizing t with
  | nil => simp [readTransChunks, transEntries, transAdvance]
  | cons chunk rest ih =>
    simp only [readTransChunks, transEntries, transAdvance]
    cases hp : parse (String.mk chunk) with
    | some d =>
      simp only [ih (t + chunk.length), Prod.mk.injEq]
      exact ⟨trivial, by omega⟩
    | none =>
      by_cases hb : pyStrip (String.mk chunk) = ""
      · simp only [if_pos hb, ih (t + chunk.length), Prod.mk.injEq]
        exact ⟨trivial, by omega⟩
      · simp only [if_neg hb, Prod.mk.injEq]
        exact ⟨trivial, by omega⟩

/-! ## Claim C1: hook-event ordering and exactly-once delivery -/

/-- C1 (amended): for every sequence of events appended in order to
`events.jsonl`, the hook-event reader starting at offset 0 delivers the
corresponding events to the callback in the same order and exactly once
within a single monitor run: the first read delivers exactly the events of
the initial lines and leaves the offset at end of file, and a later read in
the same run (offset carried over) of the file extended by further appended
lines delivers exactly the newly appended events, in order, re-delivering
none.  (The original claim additionally asserts that a restarted monitor
resumes from a persisted events offset; that part is refuted by the
counterexample, since `SessionMonitor.__init__` resets the offset to 0.) -/
theorem hook_event_ordering (parse : String → Option ε)
    (ls₁ ls₂ : List (String × ε))
    (H₁ : ∀ p ∈ ls₁, GoodEventLine parse p)
    (H₂ : ∀ p ∈ ls₂, GoodEventLine parse p) :
    (readHookEvents parse (encodeLines (ls₁.map Prod.fst)) 0).1
        = ls₁.map Prod.snd ∧
    (readHookEvents parse (encodeLines (ls₁.map Prod.fst)) 0).2
        = (encodeLines (ls₁.map Prod.fst)).length ∧
    (readHookEvents parse (encodeLines ((ls₁ ++ ls₂).map Prod.fst))
        (readHookEvents parse (encodeLines (ls₁.map Prod.fst)) 0).2).1
        = ls₂.map Prod.snd := by
  have hnl₁ : ∀ s ∈ ls₁.map Prod.fst, '\n' ∉ s.data := by
    intro s hs
    obtain ⟨p, hp, rfl⟩ := List.mem_map.mp hs
    exact (H₁ p hp).1
  have hnl₂ : ∀ s ∈ ls₂.map Prod.fst, '\n' ∉ s.data := by
    intro s hs
    obtain ⟨p, hp, rfl⟩ := List.mem_map.mp hs
    exact (H₂ p hp).1
  have hmap : ∀ (ls : List (String × ε)),
      (ls.map Prod.fst).map (fun s => s.data ++ ['\n'])
        = ls.map (fun p => p.1.data ++ ['\n']) := by
    intro ls
    rw [List.map_map]
    rfl
  have hrun₁ : readHookEvents parse (encodeLines (ls₁.map Prod.fst)) 0
      = (ls₁.map Prod.snd, (encodeLines (ls₁.map Prod.fst)).length) := by
    rw [readHookEvents_zero, splitChunks_encodeLines _ hnl₁, hmap,
      readHookChunks_goodLines parse ls₁ 0 H₁]
    simp
  refine ⟨by rw [hrun₁], by rw [hrun₁], ?_⟩
  rw [hrun₁]
  have hsplit : encodeLines ((ls₁ ++ ls₂).map Prod.fst)
      = encodeLines (ls₁.map Prod.fst) ++ encodeLines (ls₂.map Prod.fst) := by
    rw [List.map_append, encodeLines_append]
  have hlen : (encodeLines (ls₁.map Prod.fst)).length
      ≤ (encodeLines ((ls₁ ++ ls₂).map Prod.fst)).length := by
    rw [hsplit, List.length_append]
    omega
  rw [readHookEvents_no_trunc parse _ _ hlen, hsplit, List.drop_left,
    splitChunks_encodeLines _ hnl₂, hmap,
    readHookChunks_goodLines parse ls₂ _ H₂]

/-- Witness for C1: a concrete two-stage run.  One event line `a` is read
from offset 0, then a second line `b` is appended and read from the carried
offset; each event is delivered exactly once, in order. -/
theorem hook_event_ordering_witness :
    (∀ p ∈ [("a", 0)],
        GoodEventLine (fun s => if s = "a" then some 0 else
          if s = "b" then some 1 else none) p) ∧
    (readHookEvents (fun s => if s = "a" then some 0 else
        if s = "b" then some 1 else none) (encodeLines ["a"]) 0).1 = [0] ∧
    (readHookEvents (fun s => if s = "a" then some 0 else
        if s = "b" then some 1 else none) (encodeLines ["a", "b"])
      (readHookEvents (fun s => if s = "a" then some 0 else
        if s = "b" then some 1 else none) (encodeLines ["a"]) 0).2).1
      = [1] := by
  have h := hook_event_ordering
    (fun s => if s = "a" then some 0 else if s = "b" then some 1 else none)
    [("a", (0 : Nat))] [("b", 1)] (by decide) (by decide)
  exact ⟨by decide, h.1, h.2.2⟩

/-- C1 counterexample: the events offset is not persisted across restarts.
A first monitor run delivers the single event of the log and leaves the
in-memory offset at 2, but a restarted monitor starts again from
`initEventsOffset = 0` (`SessionMonitor.__init__`), so the same event is
delivered a second time — refuting the claim that a restarted monitor
resumes from a persisted events offset and never re-delivers an event it
already delivered. -/
theorem hook_event_restart_redelivers :
    (readHookEvents (fun s => if s = "a" then some 0 else none)
        (encodeLines ["a"]) initEventsOffset).1 = [0] ∧
    (readHookEvents (fun s => if s = "a" then some 0 else none)
        (encodeLines ["a"]) initEventsOffset).2 = 2 ∧
    initEventsOffset ≠ 2 ∧
    (readHookEvents (fun s => if s = "a" then some 0 else none)
        (encodeLines ["a"]) initEventsOffset).1 = [0] := by
  refine ⟨?_, ?_, ?_, ?_⟩ <;> decide

/-! ## Claim C2: transcript offset monotonicity -/

/-- C2: for every tracked session, the `last_byte_offset` maintained by the
incremental reader is non-decreasing across poll cycles, except when
truncation is detected (current file size strictly less than the stored
offset), in which case it resets to 0 and the read restarts from the top
of the file; within a single read the offset advances only past
successfully parsed lines and blank lines — in particular, when the first
line at the stored offset is non-empty and unparseable, the offset does not
increase at all. -/
theorem transcript_offset_monotonic (parse : String → Option δ)
    (file : List Char) (offset : Nat) :
    (offset ≤ file.length → offset ≤ (readNewLines parse file offset).2) ∧
    (file.length < offset →
      readNewLines parse file offset = readNewLines parse file 0) ∧
    (∀ chunk rest, offset ≤ file.length →
      splitChunks (List.drop offset file) = chunk :: rest →
      parse (String.mk chunk) = none → pyStrip (String.mk chunk) ≠ "" →
      (readNewLines parse file offset).2 = offset) := by
  refine ⟨?_, ?_, ?_⟩
  · intro hle
    rw [readNewLines_no_trunc parse file offset hle,
      readTransChunks_characterization]
    simp only
    omega
  · intro hlt
    exact readNewLines_trunc parse file offset hlt
  · intro chunk rest hle hchunks hparse hblank
    rw [readNewLines_no_trunc parse file offset hle, hchunks,
      readTransChunks_characterization]
    simp only [transAdvance, hparse, if_neg hblank]
    omega

/-- Witness for C2: all three components at concrete inputs.  A file holding
one parseable line read from offset 0 keeps the offset non-decreasing; a
stored offset of 9 on that 3-character file is truncation and behaves as a
read from 0; a file holding one non-empty unparseable line leaves the offset
unchanged at 0. -/
theorem transcript_offset_monotonic_witness :
    (0 ≤ (readNewLines (fun s => if s = String.mk ['o', 'k', '\n']
        then some 0 else none) (encodeLines ["ok"]) 0).2) ∧
    (readNewLines (fun s => if s = String.mk ['o', 'k', '\n']
        then some 0 else none) (encodeLines ["ok"]) 9
      = readNewLines (fun s => if s = String.mk ['o', 'k', '\n']
        then some 0 else none) (encodeLines ["ok"]) 0) ∧
    ((readNewLines (fun _ => (none : Option Nat))
        (encodeLines ["bad"]) 0).2 = 0) := by
  refine ⟨?_, ?_, ?_⟩
  · exact (transcript_offset_monotonic _ (encodeLines ["ok"]) 0).1 (by decide)
  · exact (transcript_offset_monotonic _ (encodeLines ["ok"]) 9).2.1 (by decide)
  · exact (transcript_offset_monotonic (fun _ => (none : Option Nat))
      (encodeLines ["bad"]) 0).2.2 ['b', 'a', 'd', '\n'] []
      (by decide) (by decide) (by decide) (by decide)

/-! ## Provider launch arguments (src/ccbot/providers/codex.py, gemini.py)

`CodexProvider.make_launch_args` validates a requested resume ID against
`RESUME_ID_RE` and raises `ValueError` on mismatch;
`GeminiProvider.make_launch_args` interpolates the resume ID with no
validation at all.  A raised `ValueError` is modelled as `Except.error`. -/

/-- Modelled from the spec: `RESUME_ID_RE` is defined in the richer variant
of providers/base.py, which is absent from src/ (codex.py imports it).  Per
the spec, providers reject resume IDs not matching `[\w-]+`; this models a
full match of that pattern with `\w` restricted to ASCII word characters. -/
def resumeIdOk (s : String) : Bool :=
  !s.isEmpty && s.data.all (fun c => c.isAlphanum || c = '_' || c = '-')

/-- Embedding of `CodexProvider.make_launch_args` (providers/codex.py lines
90 to 106): a non-empty resume ID is validated and yields `resume <id>`;
otherwise `use_continue` yields `resume --last`, else the empty string. -/
def codex_make_launch_args (resume_id : Option String)
    (use_continue : Bool) : Except String String :=
  match resume_id with
  | some rid =>
    if rid = "" then
      if use_continue then .ok "resume --last" else .ok ""
    else if resumeIdOk rid then .ok ("resume " ++ rid)
    else .error ("Invalid resume_id: " ++ rid)
  | none => if use_continue then .ok "resume --last" else .ok ""

/-- Embedding of `GeminiProvider.make_launch_args` (providers/gemini.py lines
112 to 127): a non-empty resume ID is interpolated into `--resume <id>`
without any validation; otherwise `use_continue` yields `--resume latest`,
else the empty string. -/
def gemini_make_launch_args (resume_id : Option String)
    (use_continue : Bool) : Except String String :=
  match resume_id with
  | some rid =>
    if rid = "" then
      if use_continue then .ok "--resume latest" else .ok ""
    else .ok ("--resume " ++ rid)
  | none => if use_continue then .ok "--resume latest" else .ok ""

/-- C4 (code bug): the Gemini provider does not reject resume IDs that fail
the `[\w-]+` pattern.  At the concrete input `abc; rm -rf /` — the exact
input the repository's own test suite
(tests/ccbot/test_gemini_provider.py lines 49 to 50) expects to raise
`ValueError` — `GeminiProvider.make_launch_args` returns a CLI argument
string embedding the ID, while `CodexProvider.make_launch_args` rejects the
same ID as both the spec and the tests require. -/
theorem gemini_resume_id_not_validated :
    gemini_make_launch_args (some "abc; rm -rf /") false
        = .ok "--resume abc; rm -rf /" ∧
    resumeIdOk "abc; rm -rf /" = false ∧
    codex_make_launch_args (some "abc; rm -rf /") false
        = .error "Invalid resume_id: abc; rm -rf /" := by
  refine ⟨rfl, by decide, rfl⟩

/-! ## Spinner recognition (src/ccbot/terminal_parser.py, `is_likely_spinner`)

The Unicode general-category test `unicodedata.category(char) in ("So",
"Sm")` calls into Python's Unicode database; it is a parameter `soSm` of the
embedding, and `soSmAscii` instantiates it faithfully on the ASCII range. -/

/-- The fast-path spinner set `STATUS_SPINNERS` (terminal_parser.py line 284). -/
def STATUS_SPINNERS : List Char := ['·', '✻', '✽', '✶', '✳', '✢']

/-- The explicit non-spinner set `_NON_SPINNER_CHARS` (terminal_parser.py
line 290). -/
def NON_SPINNER_CHARS : List Char :=
  ['─', '│', '┌', '┐', '└', '┘', '├', '┤', '┬', '┴', '┼', '═', '║', '╔',
   '╗', '╚', '╝', '╠', '╣', '╦', '╩', '╬', '>', '|', '+', '<', '=', '~']

/-- Box-drawing block U+2500 to U+257F, the single entry of
`_NON_SPINNER_RANGES`. -/
def inBoxDrawing (c : Char) : Bool :=
  decide (0x2500 ≤ c.toNat ∧ c.toNat ≤ 0x257F)

/-- Braille Patterns block U+2800 to U+28FF (`_BRAILLE_START`,
`_BRAILLE_END`). -/
def inBraille (c : Char) : Bool :=
  decide (0x2800 ≤ c.toNat ∧ c.toNat ≤ 0x28FF)

/-- Embedding of `is_likely_spinner` (terminal_parser.py lines 300 to 322)
on a single character (the source's empty-string guard lies outside the
`Char` domain).  `soSm` stands for membership of the character's Unicode
general category in the set So, Sm. -/
def is_likely_spinner (soSm : Char → Bool) (c : Char) : Bool :=
  if STATUS_SPINNERS.contains c then true
  else if NON_SPINNER_CHARS.contains c then false
  else if inBoxDrawing c then false
  else if inBraille c then true
  else soSm c

/-- The recognition rule exactly as the claim words it: the fast-path set,
or category So/Sm, or the Braille block — with box-drawing excluded. -/
def spinner_claim_rule (soSm : Char → Bool) (c : Char) : Bool :=
  (STATUS_SPINNERS.contains c || soSm c || inBraille c) && !inBoxDrawing c

/-- Models `unicodedata.category(c) in ("So", "Sm")` restricted to the ASCII
range: per the Unicode character database the ASCII characters of general
category Sm are exactly + < = > | ~, and none are So. -/
def soSmAscii (c : Char) : Bool :=
  ['+', '<', '=', '>', '|', '~'].contains c

/-- C8 (amended): `is_likely_spinner(c)` returns True iff c is in the
fast-path frozen set, or — when c is in neither the explicit non-spinner
set (which besides box-drawing also bans the ASCII symbols
`> | + < = ~`) nor the box-drawing block U+2500 to U+257F — c lies in the
Braille block U+2800 to U+28FF or has Unicode general category So or Sm. -/
theorem is_likely_spinner_characterization (soSm : Char → Bool) (c : Char) :
    is_likely_spinner soSm c
      = (STATUS_SPINNERS.contains c ||
          (!NON_SPINNER_CHARS.contains c && !inBoxDrawing c &&
            (inBraille c || soSm c))) := by
  unfold is_likely_spinner
  by_cases h1 : STATUS_SPINNERS.contains c
  · simp [h1, Bool.and_assoc]
  · by_cases h2 : NON_SPINNER_CHARS.contains c
    · simp [h1, h2, Bool.and_assoc]
    · by_cases h3 : inBoxDrawing c
      · simp [h1, h2, h3]
      · by_cases h4 : inBraille c
        · simp [h1, h2, h3, h4]
        · simp [h1, h2, h3, h4]

/-- C8 counterexample: the ASCII character `>` has Unicode general category
Sm and is not box-drawing, so the claim's rule recognizes it as a spinner,
but `is_likely_spinner` returns False because `>` is a member of
`_NON_SPINNER_CHARS`, which the claim does not except. -/
theorem spinner_claim_fails_on_gt :
    is_likely_spinner soSmAscii '>' = false ∧
    soSmAscii '>' = true ∧
    inBoxDrawing '>' = false ∧
    spinner_claim_rule soSmAscii '>' = true := by
  refine ⟨by decide, by decide, by decide, by decide⟩

/-! ## Atomic JSON writes (src/ccbot/utils.py, `atomic_write_json`)

The filesystem is modelled as the contents of the target path plus the
contents of the temporary file (when it exists); each fallible operating
system step of the source — `json.dumps`, `tempfile.mkstemp`, `f.write`,
`f.flush`, `os.fsync`, `os.replace`, and the `os.unlink` of the cleanup
handler — is given a failure-injection flag.  The Boolean of the result
records whether the call raised an exception. -/

/-- Contents of the target path and the temporary file. -/
structure FsState where
  target : Option String
  temp : Option String
deriving DecidableEq

/-- Failure injection for the fallible steps of `atomic_write_json`. -/
structure WriteFaults where
  serializeFails : Bool
  mkstempFails : Bool
  writeFails : Bool
  flushFails : Bool
  fsyncFails : Bool
  replaceFails : Bool
  unlinkFails : Bool
deriving DecidableEq

/-- The cleanup handler `contextlib.suppress(OSError): os.unlink(tmp_path)`
(utils.py lines 64 to 65): removes the temporary file unless the unlink
itself fails, in which case the suppressed error leaves it in place. -/
def unlinkTemp (f : WriteFaults) (fs : FsState) : FsState :=
  if f.unlinkFails then fs else { fs with temp := none }

/-- Embedding of `atomic_write_json` (utils.py lines 43 to 66): serialize,
create the temporary file, write, flush, fsync, then atomically rename over
the target; any failure after the temporary file exists triggers the
unlink-and-reraise cleanup. -/
def atomic_write_json (f : WriteFaults) (fs0 : FsState)
    (content : String) : FsState × Bool :=
  if f.serializeFails then (fs0, true)
  else if f.mkstempFails then (fs0, true)
  else
    let fs1 : FsState := { fs0 with temp := some "" }
    if f.writeFails then (unlinkTemp f fs1, true)
    else
      let fs2 : FsState := { fs1 with temp := some content }
      if f.flushFails then (unlinkTemp f fs2, true)
      else if f.fsyncFails then (unlinkTemp f fs2, true)
      else if f.replaceFails then (unlinkTemp f fs2, true)
      else ({ target := some content, temp := none }, false)

/-- C9 (amended): `atomic_write_json` either completes normally, leaving the
target path holding exactly the serialized content and no temporary file,
or raises — and on every raised exception the previous contents of the
target path are unchanged, and the temporary file has been unlinked unless
the unlink itself failed with a suppressed OSError, in which case the
temporary file may remain. -/
theorem atomic_write_json_safety (f : WriteFaults) (fs0 : FsState)
    (content : String) (h0 : fs0.temp = none) :
    ((atomic_write_json f fs0 content).2 = false →
      (atomic_write_json f fs0 content).1
        = { target := some content, temp := none }) ∧
    ((atomic_write_json f fs0 content).2 = true →
      (atomic_write_json f fs0 content).1.target = fs0.target ∧
      (f.unlinkFails = false →
        (atomic_write_json f fs0 content).1.temp = none)) := by
  unfold atomic_write_json unlinkTemp
  cases hs : f.serializeFails <;>
    cases hm : f.mkstempFails <;>
      cases hw : f.writeFails <;>
        cases hf : f.flushFails <;>
          cases hy : f.fsyncFails <;>
            cases hr : f.replaceFails <;>
              cases hu : f.unlinkFails <;>
                simp [h0]

/-- Witness for C9: a fault-free run writes the content and removes the
temporary file; a run where `os.fsync` fails but the unlink succeeds leaves
the old target untouched and no temporary file behind. -/
theorem atomic_write_json_safety_witness :
    (atomic_write_json
        ⟨false, false, false, false, false, false, false⟩
        ⟨some "old", none⟩ "new").1
      = { target := some "new", temp := none } ∧
    ((atomic_write_json
        ⟨false, false, false, false, true, false, false⟩
        ⟨some "old", none⟩ "new").1.target = some "old" ∧
      (atomic_write_json
        ⟨false, false, false, false, true, false, false⟩
        ⟨some "old", none⟩ "new").1.temp = none) := by
  constructor
  · exact (atomic_write_json_safety
      ⟨false, false, false, false, false, false, false⟩
      ⟨some "old", none⟩ "new" rfl).1 (by decide)
  · have h := (atomic_write_json_safety
      ⟨false, false, false, false, true, false, false⟩
      ⟨some "old", none⟩ "new" rfl).2 (by decide)
    exact ⟨h.1, h.2 rfl⟩

/-- C9 counterexample: when the write to the temporary file fails and the
cleanup unlink also fails (its OSError is suppressed by the source), the
call raises with the temporary file still present — refuting the claim that
on every raised exception the temporary file has been unlinked.  The
previous target contents are still unchanged. -/
theorem atomic_write_json_unlink_may_fail :
    (atomic_write_json ⟨false, false, true, false, false, false, true⟩
        ⟨some "old", none⟩ "new").2 = true ∧
    (atomic_write_json ⟨false, false, true, false, false, false, true⟩
        ⟨some "old", none⟩ "new").1.temp = some "" ∧
    (atomic_write_json ⟨false, false, true, false, false, false, true⟩
        ⟨some "old", none⟩ "new").1.target = some "old" := by
  refine ⟨by decide, by decide, by decide⟩

/-! ## Hook writer (src/ccbot/hook.py)

`_process_hook_stdin` reads a JSON payload from stdin, validates it, and
either updates `session_map.json` plus appends an event line (SessionStart)
or appends one event line (other handled events) or does nothing.  The
payload is modelled post-JSON-parse as a record of the fields the function
reads, each with the `payload.get(..., default)` default.  The tmux query
`_resolve_window_id` (a subprocess call) is a parameter `resolve`; the
`TMUX_PANE` environment variable is the `tmuxPane` argument.  File effects
are reified as a `HookAction`: `dropped` means neither `session_map.json`
nor `events.jsonl` is touched; the two write actions are performed under an
exclusive flock in the source (`_write_event`, `_update_session_map`). -/

/-- Fields of a hook stdin payload that `_process_hook_stdin` and the data
extractors read, with their `payload.get` defaults. -/
structure HookPayload where
  session_id : String := ""
  cwd : String := ""
  transcript_path : String := ""
  hook_event_name : String := ""
  tool_name : String := ""
  message : String := ""
  stop_reason : String := ""
  num_turns : Int := 0
  subagent_id : String := ""
  description : String := ""
  name : String := ""
deriving DecidableEq

/-- True on lowercase hexadecimal digits. -/
def isLowerHex (c : Char) : Bool :=
  c.isDigit || ('a' ≤ c && c ≤ 'f')

/-- The 8-4-4-4-12 lowercase-hex UUID layout of `UUID_RE` (hook.py line 30),
checked positionally. -/
def uuidLayout (cs : List Char) : Bool :=
  cs.length = 36 &&
    (List.range 36).all (fun i =>
      if i = 8 ∨ i = 13 ∨ i = 18 ∨ i = 23 then cs.getD i ' ' = '-'
      else isLowerHex (cs.getD i ' '))

/-- Python `UUID_RE.match(s)` truthiness: the pattern is anchored with `^`
and `$`, and in Python `$` also matches just before one trailing newline. -/
def uuidReMatch (s : String) : Bool :=
  uuidLayout s.data ||
    (match s.data.getLast? with
     | some '\n' => uuidLayout s.data.dropLast
     | _ => false)

/-- The claim's UUIDv4 rule, as worded: the UUID layout with version nibble
`4` and variant nibble in 8, 9, a, b. -/
def uuidV4Rule (s : String) : Bool :=
  uuidLayout s.data && s.data.getD 14 ' ' = '4' &&
    ['8', '9', 'a', 'b'].contains (s.data.getD 19 ' ')

/-- Python `os.path.isabs` on POSIX: the path starts with a slash. -/
def pyIsAbs (s : String) : Bool :=
  s.data.head? = some '/'

/-- The handled event types `_HOOK_EVENT_TYPES` (hook.py lines 41 to 47). -/
def HOOK_EVENT_TYPES : List String :=
  ["SessionStart", "Notification", "Stop", "SubagentStart", "SubagentStop"]

/-- The event-type-specific `data` payload of an event line. -/
inductive EventData where
  | notification (tool_name message : String)
  | stopData (stop_reason : String) (num_turns : Int)
  | subagent (subagent_id description name : String)
  | sessionStart (cwd transcript_path window_name : String)
  | emptyData
deriving DecidableEq

/-- One JSON line of `events.jsonl` as written by `_write_event` (the
wall-clock `ts` field carries no claim content and is omitted). -/
structure EventLine where
  event : String
  window_key : String
  session_id : String
  data : EventData
deriving DecidableEq

/-- The file effect of one hook invocation. -/
inductive HookAction where
  | dropped
  | sessionStartUpdate (window_key : String) (line : EventLine)
  | appendEvent (line : EventLine)
deriving DecidableEq

/-- The `_EVENT_DATA_EXTRACTORS` dispatch (hook.py lines 312 to 343): the
extractor for the event type applied to the payload, `emptyData` when no
extractor exists. -/
def extractEventData (event : String) (p : HookPayload) : EventData :=
  if event = "Notification" then .notification p.tool_name p.message
  else if event = "Stop" then .stopData p.stop_reason p.num_turns
  else if event = "SubagentStart" ∨ event = "SubagentStop" then
    .subagent p.subagent_id p.description p.name
  else .emptyData

/-- Embedding of `_process_hook_stdin` (hook.py lines 401 to 481) after a
successful JSON parse of stdin: empty session_id or event name, a
session_id failing `UUID_RE`, a non-empty relative cwd, an unhandled event
type, a missing `TMUX_PANE`, or a failed tmux resolution each drop the
payload; `SessionStart` updates the session map and appends an event line;
the other handled events append one event line. -/
def processHookStdin (resolve : String → Option (String × String × String))
    (tmuxPane : String) (p : HookPayload) : HookAction :=
  if p.session_id = "" ∨ p.hook_event_name = "" then .dropped
  else if ¬ uuidReMatch p.session_id then .dropped
  else if p.cwd ≠ "" ∧ ¬ pyIsAbs p.cwd then .dropped
  else if p.hook_event_name ∉ HOOK_EVENT_TYPES then .dropped
  else if tmuxPane = "" then .dropped
  else
    match resolve tmuxPane with
    | none => .dropped
    | some (key, _wid, wname) =>
      if p.hook_event_name = "SessionStart" then
        .sessionStartUpdate key
          ⟨"SessionStart", key, p.session_id,
            .sessionStart p.cwd p.transcript_path wname⟩
      else
        .appendEvent
          ⟨p.hook_event_name, key, p.session_id,
            extractEventData p.hook_event_name p⟩

/-- C3 (amended): for every hook invocation whose stdin payload is valid
(session_id matching `UUID_RE`, absolute cwd, resolvable `TMUX_PANE`) and
whose `hook_event_name` is one of Notification, Stop, SubagentStart,
SubagentStop — the non-SessionStart members of `_HOOK_EVENT_TYPES`; the
claim's TeammateIdle and TaskCompleted are not in that tuple and are
dropped — exactly one event line carrying that event type, the window_key,
the session_id, and the event-type-specific data payload is appended to
`events.jsonl` (under an exclusive flock in `_write_event`). -/
theorem hook_appends_one_event
    (resolve : String → Option (String × String × String))
    (tmuxPane : String) (p : HookPayload) (key wid wname : String)
    (hsid : uuidReMatch p.session_id = true)
    (hcwd : pyIsAbs p.cwd = true)
    (hpane : tmuxPane ≠ "")
    (hres : resolve tmuxPane = some (key, wid, wname))
    (hev : p.hook_event_name ∈
      ["Notification", "Stop", "SubagentStart", "SubagentStop"]) :
    processHookStdin resolve tmuxPane p
      = .appendEvent ⟨p.hook_event_name, key, p.session_id,
          extractEventData p.hook_event_name p⟩ := by
  have hsidne : p.session_id ≠ "" := by
    intro h0
    rw [h0] at hsid
    exact absurd hsid (by decide)
  simp only [List.mem_cons, List.not_mem_nil, or_false] at hev
  have hevne : p.hook_event_name ≠ "" := by
    rcases hev with h | h | h | h <;> rw [h] <;> decide
  have hmem : p.hook_event_name ∈ HOOK_EVENT_TYPES := by
    rcases hev with h | h | h | h <;> rw [h] <;> decide
  have hnotSS : p.hook_event_name ≠ "SessionStart" := by
    rcases hev with h | h | h | h <;> rw [h] <;> decide
  unfold processHookStdin
  rw [if_neg (by push_neg; exact ⟨hsidne, hevne⟩),
    if_neg (by simp [hsid]),
    if_neg (by simp [hcwd]),
    if_neg (by simp [hmem]),
    if_neg (by simp [hpane]),
    hres]
  simp [hnotSS]

/-- Witness for C3: a concrete valid Stop payload is appended as exactly one
event line with the Stop data extractor applied. -/
theorem hook_appends_one_event_witness :
    processHookStdin (fun _ => some ("ccbot:@5", "@5", "w1")) "%3"
        { session_id := "123e4567-e89b-42d3-a456-426614174000",
          cwd := "/tmp/proj", hook_event_name := "Stop",
          stop_reason := "end_turn", num_turns := 4 }
      = .appendEvent ⟨"Stop", "ccbot:@5",
          "123e4567-e89b-42d3-a456-426614174000",
          .stopData "end_turn" 4⟩ := by
  exact hook_appends_one_event (fun _ => some ("ccbot:@5", "@5", "w1")) "%3"
    { session_id := "123e4567-e89b-42d3-a456-426614174000",
      cwd := "/tmp/proj", hook_event_name := "Stop",
      stop_reason := "end_turn", num_turns := 4 }
    "ccbot:@5" "@5" "w1" (by decide) (by decide) (by decide) rfl (by decide)

/-- C3 counterexample: a fully valid payload whose `hook_event_name` is
`TeammateIdle` (or `TaskCompleted`) appends nothing: those types are absent
from `_HOOK_EVENT_TYPES` (hook.py lines 41 to 47), so `_process_hook_stdin`
returns before `_write_event`, while the claim says exactly one line is
appended for them. -/
theorem hook_drops_teammate_events :
    processHookStdin (fun _ => some ("ccbot:@5", "@5", "w1")) "%3"
        { session_id := "123e4567-e89b-42d3-a456-426614174000",
          cwd := "/tmp/proj", hook_event_name := "TeammateIdle" }
      = .dropped ∧
    processHookStdin (fun _ => some ("ccbot:@5", "@5", "w1")) "%3"
        { session_id := "123e4567-e89b-42d3-a456-426614174000",
          cwd := "/tmp/proj", hook_event_name := "TaskCompleted" }
      = .dropped := by
  exact ⟨by decide, by decide⟩

/-- C5 (amended): a payload whose session_id fails the `UUID_RE` layout (an
any-version lowercase-hex UUID shape, not specifically UUIDv4), or whose
cwd is non-empty and not absolute, is dropped silently: nothing is written
to `session_map.json` and nothing is appended to `events.jsonl`. -/
theorem hook_drops_invalid_payload
    (resolve : String → Option (String × String × String))
    (tmuxPane : String) (p : HookPayload)
    (h : uuidReMatch p.session_id = false ∨
      (p.cwd ≠ "" ∧ pyIsAbs p.cwd = false)) :
    processHookStdin resolve tmuxPane p = .dropped := by
  unfold processHookStdin
  by_cases h0 : p.session_id = "" ∨ p.hook_event_name = ""
  · rw [if_pos h0]
  · rw [if_neg h0]
    rcases h with hu | ⟨hc1, hc2⟩
    · rw [if_pos (by simp [hu])]
    · by_cases hup : uuidReMatch p.session_id = true
      · rw [if_neg (by simp [hup]), if_pos ⟨hc1, by simp [hc2]⟩]
      · rw [if_pos (by simpa using hup)]

/-- Witness for C5: a malformed session_id and a relative cwd are each
dropped at a concrete input. -/
theorem hook_drops_invalid_payload_witness :
    processHookStdin (fun _ => some ("ccbot:@5", "@5", "w1")) "%3"
        { session_id := "not-a-uuid", cwd := "/tmp",
          hook_event_name := "Stop" }
      = .dropped ∧
    processHookStdin (fun _ => some ("ccbot:@5", "@5", "w1")) "%3"
        { session_id := "123e4567-e89b-42d3-a456-426614174000",
          cwd := "relative/path", hook_event_name := "Stop" }
      = .dropped := by
  constructor
  · exact hook_drops_invalid_payload _ _ _ (Or.inl (by decide))
  · exact hook_drops_invalid_payload _ _ _ (Or.inr ⟨by decide, by decide⟩)

/-- C5 counterexample: two rejected-per-the-claim inputs that the code
processes.  The all-zeros UUID is not a UUIDv4 (version nibble 0) yet
matches `UUID_RE`, and an empty cwd is not an absolute path yet passes the
`if cwd and not os.path.isabs(cwd)` guard; both payloads result in an
appended event line rather than a silent drop. -/
theorem hook_accepts_nonv4_and_empty_cwd :
    uuidV4Rule "00000000-0000-0000-0000-000000000000" = false ∧
    processHookStdin (fun _ => some ("ccbot:@5", "@5", "w1")) "%3"
        { session_id := "00000000-0000-0000-0000-000000000000",
          cwd := "/tmp", hook_event_name := "Stop" }
      = .appendEvent ⟨"Stop", "ccbot:@5",
          "00000000-0000-0000-0000-000000000000", .stopData "" 0⟩ ∧
    pyIsAbs "" = false ∧
    processHookStdin (fun _ => some ("ccbot:@5", "@5", "w1")) "%3"
        { session_id := "123e4567-e89b-42d3-a456-426614174000",
          cwd := "", hook_event_name := "Stop" }
      = .appendEvent ⟨"Stop", "ccbot:@5",
          "123e4567-e89b-42d3-a456-426614174000", .stopData "" 0⟩ := by
  refine ⟨by decide, by decide, by decide, by decide⟩

/-! ## Association-list model of Python dicts

Python dicts keyed by strings are modelled as association lists with unique
logical lookup: `alookup` finds the first matching key, `ainsert` replaces
the value in place when the key is present (otherwise appends, matching
dict insertion-order semantics), and `aerase` removes the key. -/

def alookup : List (String × α) → String → Option α
  | [], _ => none
  | (k, v) :: rest, key => if k = key then some v else alookup rest key

def ainsert : List (String × α) → String → α → List (String × α)
  | [], key, v => [(key, v)]
  | (k, w) :: rest, key, v =>
    if k = key then (k, v) :: rest else (k, w) :: ainsert rest key v

def aerase : List (String × α) → String → List (String × α)
  | [], _ => []
  | (k, w) :: rest, key =>
    if k = key then aerase rest key else (k, w) :: aerase rest key

theorem alookup_ainsert_self (m : List (String × α)) (key : String) (v : α) :
    alookup (ainsert m key v) key = some v := by
  induction m with
  | nil => simp [ainsert, alookup]
  | cons kw rest ih =>
    obtain ⟨k, w⟩ := kw
    by_cases h : k = key
    · simp [ainsert, alookup, h]
    · simp [ainsert, alookup, h, ih]

theorem alookup_ainsert_other (m : List (String × α)) (key k' : String)
    (v : α) (h : k' ≠ key) :
    alookup (ainsert m key v) k' = alookup m k' := by
  have h' : key ≠ k' := Ne.symm h
  induction m with
  | nil => simp [ainsert, alookup, h']
  | cons kw rest ih =>
    obtain ⟨k, w⟩ := kw
    by_cases hk : k = key
    · subst hk
      simp [ainsert, alookup, h']
    · by_cases hk2 : k = k'
      · subst hk2
        simp [ainsert, alookup, hk]
      · simp [ainsert, alookup, hk, hk2, ih]

theorem alookup_aerase_self (m : List (String × α)) (key : String) :
    alookup (aerase m key) key = none := by
  induction m with
  | nil => simp [aerase, alookup]
  | cons kw rest ih =>
    obtain ⟨k, w⟩ := kw
    by_cases h : k = key
    · simp [aerase, h, ih]
    · simp [aerase, alookup, h, ih]

theorem alookup_aerase_other (m : List (String × α)) (key k' : String)
    (h : k' ≠ key) :
    alookup (aerase m key) k' = alookup m k' := by
  have h' : key ≠ k' := Ne.symm h
  induction m with
  | nil => simp [aerase]
  | cons kw rest ih =>
    obtain ⟨k, w⟩ := kw
    by_cases hk : k = key
    · subst hk
      simp [aerase, alookup, h', ih]
    · simp [aerase, alookup, hk, ih]

/-! ## Session-map update (src/ccbot/hook.py, `_update_session_map`)

The SessionStart path: under an exclusive flock on `session_map.lock`, load
`session_map.json`, upsert the entry at the window key with the five fields
(`provider_name` hard-coded to `claude`), delete the old-format
`<tmux_session>:<window_name>` key when it differs from the window key and
is present, and write the file atomically via `atomic_write_json`.

The function as shipped cannot run: hook.py line 369 reads
`except json.JSONDecodeError, OSError:`, which is Python 2 exception syntax
and a `SyntaxError` under Python 3, so importing `ccbot.hook` (as the
repository's own tests do) fails before any hook invocation.  The
definition below embeds the evident intent of lines 346 to 398, with that
`except` read as `except (json.JSONDecodeError, OSError):`. -/

/-- One `session_map.json` entry (spec section 6). -/
structure SessionMapEntry where
  session_id : String
  cwd : String
  window_name : String
  transcript_path : String
  provider_name : String
deriving DecidableEq

/-- The map transformation performed by `_update_session_map` on the loaded
session map. -/
def updateSessionMap (m : List (String × SessionMapEntry))
    (key session_id cwd window_name transcript_path tmux_session : String) :
    List (String × SessionMapEntry) :=
  let m1 := ainsert m key
    ⟨session_id, cwd, window_name, transcript_path, "claude"⟩
  let oldKey := tmux_session ++ ":" ++ window_name
  if oldKey ≠ key ∧ (alookup m1 oldKey).isSome then aerase m1 oldKey else m1

/-- C6 (intended behavior; see the code-bug note on `updateSessionMap`):
after the SessionStart update the entry at the window key is exactly the
five-field record with `provider_name = "claude"`; the old-format
`<tmux_session>:<window_name>` key is absent whenever it differs from the
window key; and every other key maps to exactly what it mapped to before. -/
theorem update_session_map_frame (m : List (String × SessionMapEntry))
    (key sid cwd wname tpath tmux : String) :
    alookup (updateSessionMap m key sid cwd wname tpath tmux) key
        = some ⟨sid, cwd, wname, tpath, "claude"⟩ ∧
    (tmux ++ ":" ++ wname ≠ key →
      alookup (updateSessionMap m key sid cwd wname tpath tmux)
          (tmux ++ ":" ++ wname) = none) ∧
    (∀ k, k ≠ key → k ≠ tmux ++ ":" ++ wname →
      alookup (updateSessionMap m key sid cwd wname tpath tmux) k
        = alookup m k) := by
  unfold updateSessionMap
  by_cases hcond : tmux ++ ":" ++ wname ≠ key ∧
      (alookup (ainsert m key ⟨sid, cwd, wname, tpath, "claude"⟩)
        (tmux ++ ":" ++ wname)).isSome
  · rw [if_pos hcond]
    refine ⟨?_, ?_, ?_⟩
    · rw [alookup_aerase_other _ _ _ (Ne.symm hcond.1),
        alookup_ainsert_self]
    · intro _
      exact alookup_aerase_self _ _
    · intro k hk1 hk2
      rw [alookup_aerase_other _ _ _ hk2, alookup_ainsert_other _ _ _ _ hk1]
  · rw [if_neg hcond]
    refine ⟨alookup_ainsert_self _ _ _, ?_, ?_⟩
    · intro hne
      rcases not_and_or.mp hcond with h | h
      · exact absurd hne h
      · exact Option.not_isSome_iff_eq_none.mp h
    · intro k hk1 _
      exact alookup_ainsert_other _ _ _ _ hk1

/-- Witness for C6 at a concrete map: the window-key entry is upserted, the
differing old-format key `ccbot:w1` is removed, and the unrelated entry
`ccbot:@9` is untouched. -/
theorem update_session_map_frame_witness :
    alookup (updateSessionMap
        [("ccbot:w1", ⟨"s0", "/old", "w1", "", "claude"⟩),
         ("ccbot:@9", ⟨"s9", "/nine", "w9", "", "claude"⟩)]
        "ccbot:@5" "s1" "/tmp" "w1" "/tmp/t.jsonl" "ccbot") "ccbot:@5"
      = some ⟨"s1", "/tmp", "w1", "/tmp/t.jsonl", "claude"⟩ ∧
    alookup (updateSessionMap
        [("ccbot:w1", ⟨"s0", "/old", "w1", "", "claude"⟩),
         ("ccbot:@9", ⟨"s9", "/nine", "w9", "", "claude"⟩)]
        "ccbot:@5" "s1" "/tmp" "w1" "/tmp/t.jsonl" "ccbot") "ccbot:w1"
      = none ∧
    alookup (updateSessionMap
        [("ccbot:w1", ⟨"s0", "/old", "w1", "", "claude"⟩),
         ("ccbot:@9", ⟨"s9", "/nine", "w9", "", "claude"⟩)]
        "ccbot:@5" "s1" "/tmp" "w1" "/tmp/t.jsonl" "ccbot") "ccbot:@9"
      = some ⟨"s9", "/nine", "w9", "", "claude"⟩ := by
  have h := update_session_map_frame
    [("ccbot:w1", ⟨"s0", "/old", "w1", "", "claude"⟩),
     ("ccbot:@9", ⟨"s9", "/nine", "w9", "", "claude"⟩)]
    "ccbot:@5" "s1" "/tmp" "w1" "/tmp/t.jsonl" "ccbot"
  exact ⟨h.1, h.2.1 (by decide),
    by rw [h.2.2 "ccbot:@9" (by decide) (by decide)]; rfl⟩

/-! ## Window resolver (src/ccbot/window_resolver.py)

`resolve_stale_ids` re-resolves persisted window IDs against the live tmux
window list: `window_states`, then `thread_bindings`, then
`user_window_offsets`, threading the mutable `window_display_names` dict
through the first two phases.  Dicts are association lists; user and thread
IDs are integers.  `WindowState` is modelled by the single field the
resolver reads and writes (`window_name`); the `changed` flag the source
returns carries no claim content and is omitted. -/

/-- Minimal representation of a live tmux window (window_resolver.py lines
16 to 21). -/
structure LiveWindow where
  window_id : String
  window_name : String
deriving DecidableEq

/-- The `window_name` field of a persisted window state, the only field
`resolve_stale_ids` touches. -/
structure WinState where
  window_name : String
deriving DecidableEq

/-- Embedding of `is_window_id` (window_resolver.py lines 24 to 26):
`key.startswith("@") and len(key) > 1 and key[1:].isdigit()` (digits
restricted to ASCII in the model). -/
def is_window_id (key : String) : Bool :=
  match key.data with
  | '@' :: rest => !rest.isEmpty && rest.all Char.isDigit
  | _ => false

/-- The dict comprehension `{w.window_name: w.window_id for w in
live_windows}`: later windows overwrite earlier ones with the same name. -/
def liveByName (lws : List LiveWindow) : List (String × String) :=
  lws.foldl (fun acc w => ainsert acc w.window_name w.window_id) []

/-- The set `{w.window_id for w in live_windows}`. -/
def liveIdsOf (lws : List LiveWindow) : List String :=
  lws.map LiveWindow.window_id

/-- One iteration of the `_resolve_thread_bindings` inner loop
(window_resolver.py lines 83 to 112), acting on the accumulated new
bindings and the threaded display-names dict. -/
def resolveBindingStep (lbn : List (String × String)) (lids : List String)
    (st : List (Int × String) × List (String × String)) (b : Int × String) :
    List (Int × String) × List (String × String) :=
  if is_window_id b.2 then
    if lids.contains b.2 then (st.1 ++ [b], st.2)
    else
      match alookup lbn ((alookup st.2 b.2).getD b.2) with
      | some nid =>
        (st.1 ++ [(b.1, nid)], ainsert st.2 nid ((alookup st.2 b.2).getD b.2))
      | none => (st.1, st.2)
  else
    match alookup lbn b.2 with
    | some nid => (st.1 ++ [(b.1, nid)], ainsert st.2 nid b.2)
    | none => (st.1, st.2)

/-- One user's bindings dict rebuilt by `_resolve_thread_bindings`. -/
def resolveUserBindings (lbn : List (String × String)) (lids : List String)
    (dn : List (String × String)) (bs : List (Int × String)) :
    List (Int × String) × List (String × String) :=
  bs.foldl (resolveBindingStep lbn lids) ([], dn)

/-- One user entry of the `_resolve_thread_bindings` outer loop: rebuild the
user's bindings dict and thread the display-names dict onward. -/
def resolveUsersStep (lbn : List (String × String)) (lids : List String)
    (acc : List (Int × List (Int × String)) × List (String × String))
    (u : Int × List (Int × String)) :
    List (Int × List (Int × String)) × List (String × String) :=
  let ru := resolveUserBindings lbn lids acc.2 u.2
  (acc.1 ++ [(u.1, ru.1)], ru.2)

/-- Embedding of `_resolve_thread_bindings` (window_resolver.py lines 73 to
119): rebuild each user's bindings in order, threading the display-names
dict, then drop users whose bindings dict became empty. -/
def resolveThreadBindings (lbn : List (String × String)) (lids : List String)
    (tb : List (Int × List (Int × String))) (dn : List (String × String)) :
    List (Int × List (Int × String)) × List (String × String) :=
  let r := tb.foldl (resolveUsersStep lbn lids) ([], dn)
  (r.1.filter (fun u => !u.2.isEmpty), r.2)

/-- One iteration of the `_resolve_window_states` loop (window_resolver.py
lines 38 to 67). -/
def resolveWindowStep (lbn : List (String × String)) (lids : List String)
    (st : List (String × WinState) × List (String × String))
    (kv : String × WinState) :
    List (String × WinState) × List (String × String) :=
  if is_window_id kv.1 then
    if lids.contains kv.1 then (st.1 ++ [kv], st.2)
    else
      let display := (alookup st.2 kv.1).getD
        (if kv.2.window_name = "" then kv.1 else kv.2.window_name)
      match alookup lbn display with
      | some nid =>
        (st.1 ++ [(nid, ⟨display⟩)], aerase (ainsert st.2 nid display) kv.1)
      | none => (st.1, st.2)
  else
    match alookup lbn kv.1 with
    | some nid => (st.1 ++ [(nid, ⟨kv.1⟩)], ainsert st.2 nid kv.1)
    | none => (st.1, st.2)

/-- Embedding of `_resolve_window_states` (window_resolver.py lines 29 to
70). -/
def resolveWindowStates (lbn : List (String × String)) (lids : List String)
    (wsMap : List (String × WinState)) (dn : List (String × String)) :
    List (String × WinState) × List (String × String) :=
  wsMap.foldl (resolveWindowStep lbn lids) ([], dn)

/-- One iteration of the `_resolve_offsets` inner loop (window_resolver.py
lines 132 to 145); the display-names dict is read but never written here. -/
def resolveOffsetStep (lbn : List (String × String)) (lids : List String)
    (dn : List (String × String)) (acc : List (String × Int))
    (kv : String × Int) : List (String × Int) :=
  if is_window_id kv.1 then
    if lids.contains kv.1 then acc ++ [kv]
    else
      match alookup lbn ((alookup dn kv.1).getD kv.1) with
      | some nid => acc ++ [(nid, kv.2)]
      | none => acc
  else
    match alookup lbn kv.1 with
    | some nid => acc ++ [(nid, kv.2)]
    | none => acc

/-- Embedding of `_resolve_offsets` (window_resolver.py lines 122 to 148). -/
def resolveOffsets (lbn : List (String × String)) (lids : List String)
    (dn : List (String × String))
    (offs : List (Int × List (String × Int))) :
    List (Int × List (String × Int)) :=
  offs.map (fun u => (u.1, u.2.foldl (resolveOffsetStep lbn lids dn) []))

/-- Embedding of `resolve_stale_ids` (window_resolver.py lines 151 to 178):
build the name and id indexes from the live windows, then resolve window
states, thread bindings, and offsets in that order, returning the four
updated maps. -/
def resolve_stale_ids (lws : List LiveWindow)
    (windowStates : List (String × WinState))
    (threadBindings : List (Int × List (Int × String)))
    (offs : List (Int × List (String × Int)))
    (displayNames : List (String × String)) :
    List (String × WinState) × List (Int × List (Int × String)) ×
      List (Int × List (String × Int)) × List (String × String) :=
  let lbn := liveByName lws
  let lids := liveIdsOf lws
  let rws := resolveWindowStates lbn lids windowStates displayNames
  let rtb := resolveThreadBindings lbn lids threadBindings rws.2
  let roffs := resolveOffsets lbn lids rtb.2 offs
  (rws.1, rtb.1, roffs, rtb.2)

theorem alookup_ainsert_cases (m : List (String × α)) (k k' : String)
    (v w : α) (h : alookup (ainsert m k v) k' = some w) :
    w = v ∨ alookup m k' = some w := by
  by_cases hk : k' = k
  · subst hk
    rw [alookup_ainsert_self] at h
    exact Or.inl (Option.some.inj h).symm
  · rw [alookup_ainsert_other _ _ _ _ hk] at h
    exact Or.inr h

theorem liveByName_foldl_sound (ws : List LiveWindow) (S : List String)
    (hws : ∀ w ∈ ws, w.window_id ∈ S) :
    ∀ acc : List (String × String),
      (∀ n nid, alookup acc n = some nid → nid ∈ S) →
      ∀ n nid,
        alookup (ws.foldl (fun a w => ainsert a w.window_name w.window_id)
          acc) n = some nid → nid ∈ S := by
  induction ws with
  | nil => exact fun acc hacc => hacc
  | cons w rest ih =>
    intro acc hacc n nid h
    have hw : w.window_id ∈ S := hws w (List.mem_cons_self w rest)
    have hrest : ∀ v ∈ rest, v.window_id ∈ S :=
      fun v hv => hws v (List.mem_cons_of_mem _ hv)
    refine ih hrest (ainsert acc w.window_name w.window_id) ?_ n nid h
    intro n' nid' h'
    rcases alookup_ainsert_cases acc w.window_name n' w.window_id nid' h' with
      rfl | h''
    · exact hw
    · exact hacc n' nid' h''

theorem liveByName_sound (lws : List LiveWindow) (n nid : String)
    (h : alookup (liveByName lws) n = some nid) : nid ∈ liveIdsOf lws := by
  refine liveByName_foldl_sound lws (liveIdsOf lws) ?_ [] ?_ n nid h
  · intro w hw
    exact List.mem_map.mpr ⟨w, hw, rfl⟩
  · intro n' nid' h'
    simp [alookup] at h'

theorem resolveBindingStep_grows (lbn : List (String × String))
    (lids : List String) (st : List (Int × String) × List (String × String))
    (b : Int × String) (x : Int × String) (hx : x ∈ st.1) :
    x ∈ (resolveBindingStep lbn lids st b).1 := by
  unfold resolveBindingStep
  by_cases h1 : is_window_id b.2
  · by_cases h2 : lids.contains b.2
    · simp only [h1, if_true, h2]
      exact List.mem_append_left _ hx
    · simp only [h1, if_true, h2, Bool.false_eq_true, if_false]
      cases alookup lbn ((alookup st.2 b.2).getD b.2)
      · exact hx
      · exact List.mem_append_left _ hx
  · simp only [h1, Bool.false_eq_true, if_false]
    cases alookup lbn b.2
    · exact hx
    · exact List.mem_append_left _ hx

theorem resolveBindingStep_live (lbn : List (String × String))
    (lids : List String) (st : List (Int × String) × List (String × String))
    (b : Int × String)
    (Hlbn : ∀ n nid, alookup lbn n = some nid → nid ∈ lids)
    (Hst : ∀ x ∈ st.1, x.2 ∈ lids) :
    ∀ x ∈ (resolveBindingStep lbn lids st b).1, x.2 ∈ lids := by
  intro x hx
  unfold resolveBindingStep at hx
  by_cases h1 : is_window_id b.2
  · by_cases h2 : lids.contains b.2
    · simp only [h1, if_true, h2] at hx
      rcases List.mem_append.mp hx with h | h
      · exact Hst x h
      · have : x = b := List.mem_singleton.mp h
        subst this
        simpa using h2
    · simp only [h1, if_true, h2, Bool.false_eq_true, if_false] at hx
      cases hl : alookup lbn ((alookup st.2 b.2).getD b.2)
      · rw [hl] at hx
        exact Hst x hx
      · rw [hl] at hx
        rcases List.mem_append.mp hx with h | h
        · exact Hst x h
        · have : x = (b.1, _) := List.mem_singleton.mp h
          rw [this]
          exact Hlbn _ _ hl
  · simp only [h1, Bool.false_eq_true, if_false] at hx
    cases hl : alookup lbn b.2
    · rw [hl] at hx
      exact Hst x hx
    · rw [hl] at hx
      rcases List.mem_append.mp hx with h | h
      · exact Hst x h
      · have : x = (b.1, _) := List.mem_singleton.mp h
        rw [this]
        exact Hlbn _ _ hl

theorem foldl_binding_live (lbn : List (String × String))
    (lids : List String)
    (Hlbn : ∀ n nid, alookup lbn n = some nid → nid ∈ lids)
    (bs : List (Int × String)) :
    ∀ st : List (Int × String) × List (String × String),
      (∀ x ∈ st.1, x.2 ∈ lids) →
      ∀ x ∈ (bs.foldl (resolveBindingStep lbn lids) st).1, x.2 ∈ lids := by
  induction bs with
  | nil => exact fun st hst => hst
  | cons b rest ih =>
    intro st hst
    exact ih (resolveBindingStep lbn lids st b)
      (resolveBindingStep_live lbn lids st b Hlbn hst)

theorem foldl_binding_grows (lbn : List (String × String))
    (lids : List String) (bs : List (Int × String)) :
    ∀ (st : List (Int × String) × List (String × String)) (x : Int × String),
      x ∈ st.1 → x ∈ (bs.foldl (resolveBindingStep lbn lids) st).1 := by
  induction bs with
  | nil => exact fun st x hx => hx
  | cons b rest ih =>
    intro st x hx
    exact ih (resolveBindingStep lbn lids st b) x
      (resolveBindingStep_grows lbn lids st b x hx)

theorem resolveBindingStep_keeps (lbn : List (String × String))
    (lids : List String) (st : List (Int × String) × List (String × String))
    (tid : Int) (val : String) (h1 : is_window_id val = true)
    (h2 : val ∈ lids) :
    (resolveBindingStep lbn lids st (tid, val)).1 = st.1 ++ [(tid, val)] := by
  have hc : lids.contains val = true := by simpa using h2
  unfold resolveBindingStep
  simp [h1, hc, h2]

theorem resolveUserBindings_keeps (lbn : List (String × String))
    (lids : List String) (bs : List (Int × String)) (tid : Int)
    (val : String) (h1 : is_window_id val = true) (h2 : val ∈ lids) :
    ∀ st : List (Int × String) × List (String × String),
      (tid, val) ∈ bs →
      (tid, val) ∈ (bs.foldl (resolveBindingStep lbn lids) st).1 := by
  induction bs with
  | nil => intro st h; cases h
  | cons b rest ih =>
    intro st hmem
    rcases List.mem_cons.mp hmem with rfl | h
    · refine foldl_binding_grows lbn lids rest _ (tid, val) ?_
      rw [resolveBindingStep_keeps lbn lids st tid val h1 h2]
      exact List.mem_append_right _ (List.mem_singleton.mpr rfl)
    · exact ih _ h

theorem foldl_users_live (lbn : List (String × String))
    (lids : List String)
    (Hlbn : ∀ n nid, alookup lbn n = some nid → nid ∈ lids)
    (tb : List (Int × List (Int × String))) :
    ∀ acc : List (Int × List (Int × String)) × List (String × String),
      (∀ u ∈ acc.1, ∀ x ∈ u.2, x.2 ∈ lids) →
      ∀ u ∈ (tb.foldl (resolveUsersStep lbn lids) acc).1,
        ∀ x ∈ u.2, x.2 ∈ lids := by
  induction tb with
  | nil => exact fun acc hacc => hacc
  | cons t rest ih =>
    intro acc hacc
    refine ih (resolveUsersStep lbn lids acc t) ?_
    intro u hu
    rcases List.mem_append.mp hu with h | h
    · exact hacc u h
    · have : u = (t.1, (resolveUserBindings lbn lids acc.2 t.2).1) :=
        List.mem_singleton.mp h
      subst this
      intro x hx
      exact foldl_binding_live lbn lids Hlbn t.2 ([], acc.2)
        (by intro y hy; cases hy) x hx

theorem foldl_users_grows (lbn : List (String × String))
    (lids : List String) (tb : List (Int × List (Int × String))) :
    ∀ (acc : List (Int × List (Int × String)) × List (String × String))
      (u : Int × List (Int × String)), u ∈ acc.1 →
      u ∈ (tb.foldl (resolveUsersStep lbn lids) acc).1 := by
  induction tb with
  | nil => exact fun acc u hu => hu
  | cons t rest ih =>
    intro acc u hu
    exact ih (resolveUsersStep lbn lids acc t) u (List.mem_append_left _ hu)

theorem foldl_users_kept (lbn : List (String × String))
    (lids : List String) (tb : List (Int × List (Int × String)))
    (uid : Int) (bs : List (Int × String)) (tid : Int) (val : String)
    (h1 : is_window_id val = true) (h2 : val ∈ lids)
    (hbs : (tid, val) ∈ bs) :
    ∀ acc : List (Int × List (Int × String)) × List (String × String),
      (uid, bs) ∈ tb →
      ∃ bs', (uid, bs') ∈ (tb.foldl (resolveUsersStep lbn lids) acc).1 ∧
        (tid, val) ∈ bs' := by
  induction tb with
  | nil => intro acc h; cases h
  | cons t rest ih =>
    intro acc hmem
    rcases List.mem_cons.mp hmem with rfl | h
    · refine ⟨(resolveUserBindings lbn lids acc.2 bs).1, ?_, ?_⟩
      · refine foldl_users_grows lbn lids rest _ _ ?_
        exact List.mem_append_right _ (List.mem_singleton.mpr rfl)
      · exact resolveUserBindings_keeps lbn lids bs tid val h1 h2 _ hbs
    · exact ih _ h

/-- C7: after `resolve_stale_ids`, (a) every window-id value remaining in
`thread_bindings` is a live window id; (b) a persisted binding whose value
is a live window id is kept unchanged in its user's rebuilt bindings; (c)
at each binding-resolution step, a value in window-id form that is not live
but whose display name resolves to a live window id is replaced by that id;
and (d) a binding resolvable neither way contributes nothing (it is
dropped). -/
theorem resolve_stale_ids_bindings (lws : List LiveWindow)
    (windowStates : List (String × WinState))
    (tb : List (Int × List (Int × String)))
    (offs : List (Int × List (String × Int)))
    (dn : List (String × String)) :
    (∀ u ∈ (resolve_stale_ids lws windowStates tb offs dn).2.1,
      ∀ x ∈ u.2, x.2 ∈ liveIdsOf lws) ∧
    (∀ uid bs tid val, (uid, bs) ∈ tb → (tid, val) ∈ bs →
      is_window_id val = true → val ∈ liveIdsOf lws →
      ∃ bs', (uid, bs') ∈ (resolve_stale_ids lws windowStates tb offs dn).2.1
        ∧ (tid, val) ∈ bs') ∧
    (∀ st tid val nid, is_window_id val = true →
      val ∉ liveIdsOf lws →
      alookup (liveByName lws) ((alookup st.2 val).getD val) = some nid →
      (resolveBindingStep (liveByName lws) (liveIdsOf lws) st (tid, val)).1
        = st.1 ++ [(tid, nid)]) ∧
    (∀ st tid val, is_window_id val = true → val ∉ liveIdsOf lws →
      alookup (liveByName lws) ((alookup st.2 val).getD val) = none →
      (resolveBindingStep (liveByName lws) (liveIdsOf lws) st (tid, val)).1
        = st.1) := by
  have Hlbn : ∀ n nid, alookup (liveByName lws) n = some nid →
      nid ∈ liveIdsOf lws := liveByName_sound lws
  refine ⟨?_, ?_, ?_, ?_⟩
  · intro u hu x hx
    unfold resolve_stale_ids resolveThreadBindings at hu
    simp only at hu
    have hu' := List.mem_filter.mp hu
    exact foldl_users_live (liveByName lws) (liveIdsOf lws) Hlbn tb
      ([], (resolveWindowStates (liveByName lws) (liveIdsOf lws)
        windowStates dn).2) (by intro v hv; cases hv) u hu'.1 x hx
  · intro uid bs tid val hmem hbs h1 h2
    unfold resolve_stale_ids resolveThreadBindings
    simp only
    obtain ⟨bs', hbs', hval⟩ := foldl_users_kept (liveByName lws)
      (liveIdsOf lws) tb uid bs tid val h1 h2 hbs
      ([], (resolveWindowStates (liveByName lws) (liveIdsOf lws)
        windowStates dn).2) hmem
    refine ⟨bs', List.mem_filter.mpr ⟨hbs', ?_⟩, hval⟩
    simp only [Bool.not_eq_eq_eq_not, Bool.not_false]
    cases bs' with
    | nil => cases hval
    | cons y ys => simp [List.isEmpty]
  · intro st tid val nid h1 h2 hlook
    have hc : (liveIdsOf lws).contains val = false := by
      cases hcc : (liveIdsOf lws).contains val
      · rfl
      · exact absurd (by simpa using hcc) h2
    unfold resolveBindingStep
    simp only [h1, if_true, hc, Bool.false_eq_true, if_false, hlook]
  · intro st tid val h1 h2 hlook
    have hc : (liveIdsOf lws).contains val = false := by
      cases hcc : (liveIdsOf lws).contains val
      · rfl
      · exact absurd (by simpa using hcc) h2
    unfold resolveBindingStep
    simp only [h1, if_true, hc, Bool.false_eq_true, if_false, hlook]

/-- Witness for C7 at a concrete state: live windows `@1` (alpha) and `@2`
(beta); user 7 has bindings to live `@1` (kept), stale `@3` whose display
name beta re-resolves to `@2`, and stale `@4` which is dropped.  Every
value in the result is live, and the live binding survives unchanged. -/
theorem resolve_stale_ids_bindings_witness :
    (∀ x ∈ [((42 : Int), "@1"), (43, "@2")], x.2 ∈
      liveIdsOf [⟨"@1", "alpha"⟩, ⟨"@2", "beta"⟩]) ∧
    (∃ bs', (7, bs') ∈ (resolve_stale_ids
        [⟨"@1", "alpha"⟩, ⟨"@2", "beta"⟩] []
        [(7, [(42, "@1"), (43, "@3"), (44, "@4")])] []
        [("@3", "beta")]).2.1 ∧ ((42 : Int), "@1") ∈ bs') := by
  constructor
  · intro x hx
    refine (resolve_stale_ids_bindings [⟨"@1", "alpha"⟩, ⟨"@2", "beta"⟩]
      [] [(7, [(42, "@1"), (43, "@3"), (44, "@4")])] []
      [("@3", "beta")]).1 (7, [(42, "@1"), (43, "@2")]) (by decide) x hx
  · exact (resolve_stale_ids_bindings [⟨"@1", "alpha"⟩, ⟨"@2", "beta"⟩]
      [] [(7, [(42, "@1"), (43, "@3"), (44, "@4")])] []
      [("@3", "beta")]).2.1 7 [(42, "@1"), (43, "@3"), (44, "@4")] 42 "@1"
      (by decide) (by decide) (by decide) (by decide)

/-! ## Interactive-UI extraction (src/ccbot/terminal_parser.py) and the
Gemini status parser (src/ccbot/providers/gemini.py)

`extract_interactive_content` scans the pane lines top-down for the first
line matching any top regex of a pattern, then forward for the first line
matching any bottom regex (or, with no bottom set, back from the end for
the last non-blank line), rejects regions smaller than `min_gap`, expands
upward by `context_above` non-blank lines, and returns the joined region
with long dash runs collapsed.  The compiled regexes of the Gemini
`PermissionPrompt` pattern are embedded as executable matchers. -/

/-- Test that `pat` is a prefix of `l`. -/
def startsWithChars : List Char → List Char → Bool
  | [], _ => true
  | _ :: _, [] => false
  | p :: ps, c :: cs => p = c && startsWithChars ps cs

/-- Test that `sub` occurs as a contiguous substring of the second list. -/
def containsSub (sub : List Char) : List Char → Bool
  | [] => sub.isEmpty
  | c :: rest => startsWithChars sub (c :: rest) || containsSub sub rest

/-- Python `str.rstrip()`. -/
def pyRStrip (s : String) : String :=
  String.mk (s.data.reverse.dropWhile Char.isWhitespace).reverse

/-- Helper of `pySplitNl`. -/
def splitNlAux : List Char → List Char → List String
  | [], acc => [String.mk acc.reverse]
  | c :: rest, acc =>
    if c = '\n' then String.mk acc.reverse :: splitNlAux rest []
    else splitNlAux rest (c :: acc)

/-- Python `str.split("\n")`: pieces between newlines, the empty string for
an empty input. -/
def pySplitNl (s : String) : List String :=
  splitNlAux s.data []

/-- The regex `^\s*Action Required` of the Gemini `PermissionPrompt` top
set (gemini.py lines 80 to 83), as `re.search` applies it to one line. -/
def topActionRequired (line : String) : Bool :=
  startsWithChars "Action Required".data (line.data.dropWhile Char.isWhitespace)

/-- The regex `\(esc` of the Gemini `PermissionPrompt` bottom set
(gemini.py line 87). -/
def bottomEsc (line : String) : Bool :=
  containsSub "(esc".data line.data

/-- The regex `^\s*\d+\.\s+No\b` of the Gemini `PermissionPrompt` bottom
set (gemini.py line 89): leading whitespace, digits, a dot, whitespace,
the word `No` at a word boundary. -/
def bottomNumberedNo (line : String) : Bool :=
  let l1 := line.data.dropWhile Char.isWhitespace
  let digits := l1.takeWhile Char.isDigit
  let l2 := l1.dropWhile Char.isDigit
  if digits.isEmpty then false
  else
    match l2 with
    | '.' :: l3 =>
      let ws := l3.takeWhile Char.isWhitespace
      let l4 := l3.dropWhile Char.isWhitespace
      if ws.isEmpty then false
      else
        match l4 with
        | 'N' :: 'o' :: rest =>
          match rest with
          | [] => true
          | c :: _ => !(c.isAlphanum || c = '_')
        | _ => false
    | _ => false

/-- A `UIPattern` (terminal_parser.py lines 35 to 57) with its compiled
regex tuples embedded as line matchers. -/
structure UIPattern where
  name : String
  top : List (String → Bool)
  bottom : List (String → Bool)
  min_gap : Nat := 2
  context_above : Nat := 0

/-- Content extracted from an interactive UI (terminal_parser.py lines 27
to 32). -/
structure InteractiveUIContent where
  content : String
  name : String
deriving DecidableEq

/-- `GEMINI_UI_PATTERNS` (gemini.py lines 77 to 91): the single
`PermissionPrompt` pattern. -/
def GEMINI_UI_PATTERNS : List UIPattern :=
  [{ name := "PermissionPrompt",
     top := [topActionRequired],
     bottom := [bottomEsc, bottomNumberedNo] }]

/-- Index of the first line matching any matcher, counting from `i`. -/
def findMatchIdx (ps : List (String → Bool)) : List String → Nat → Option Nat
  | [], _ => none
  | l :: rest, i =>
    if ps.any (fun p => p l) then some i else findMatchIdx ps rest (i + 1)

/-- Greatest index strictly above `lo` holding a non-blank line (the
no-bottom fallback loop of `_try_extract`). -/
def lastNonBlankAfter (lines : List String) (lo : Nat) : Option Nat :=
  ((List.range lines.length).filter
    (fun i => decide (lo < i ∧ pyStrip (lines.getD i "") ≠ ""))).getLast?

/-- Embedding of `_context_start` (terminal_parser.py lines 155 to 162). -/
def contextStart (lines : List String) (top_idx ca : Nat) : Nat :=
  if ca = 0 then top_idx
  else
    match (List.range' (top_idx - ca) (top_idx - (top_idx - ca))).find?
        (fun k => decide (pyStrip (lines.getD k "") ≠ "")) with
    | some k => k
    | none => top_idx

/-- Embedding of `_shorten_separators` (terminal_parser.py lines 145 to
149): every line of five or more box-drawing dashes collapses to five. -/
def shortenSeparators (text : String) : String :=
  String.intercalate "\n" ((pySplitNl text).map
    (fun l => if 5 ≤ l.data.length ∧ l.data.all (fun c => c = '─')
      then "─────" else l))

/-- Embedding of `_try_extract` (terminal_parser.py lines 165 to 198). -/
def tryExtract (lines : List String) (p : UIPattern) :
    Option InteractiveUIContent :=
  match findMatchIdx p.top lines 0 with
  | none => none
  | some ti =>
    let bi :=
      if p.bottom.isEmpty then lastNonBlankAfter lines ti
      else findMatchIdx p.bottom (lines.drop (ti + 1)) (ti + 1)
    match bi with
    | none => none
    | some bj =>
      if bj - ti < p.min_gap then none
      else
        let ds := contextStart lines ti p.context_above
        let content := pyRStrip
          (String.intercalate "\n" ((lines.drop ds).take (bj + 1 - ds)))
        some ⟨shortenSeparators content, p.name⟩

/-- First pattern that extracts, in declaration order. -/
def firstExtract (lines : List String) :
    List UIPattern → Option InteractiveUIContent
  | [] => none
  | p :: ps =>
    match tryExtract lines p with
    | some r => some r
    | none => firstExtract lines ps

/-- Embedding of `extract_interactive_content` (terminal_parser.py lines
204 to 227) on a raw string: empty input yields nothing; otherwise the
stripped text is split into lines and the patterns are tried in order. -/
def extract_interactive_content (pane_text : String)
    (patterns : List UIPattern) : Option InteractiveUIContent :=
  if pane_text = "" then none
  else firstExtract (pySplitNl (pyStrip pane_text)) patterns

/-- A `StatusUpdate` as constructed by the Gemini provider (the richer
providers/base.py variant; spec section 4.3). -/
structure StatusUpdate where
  raw_text : String
  display_label : String
  is_interactive : Bool := false
  ui_type : Option String := none
deriving DecidableEq

/-- Embedding of `GeminiProvider.parse_terminal_status` (gemini.py lines
218 to 258): a pane title containing ✦ short-circuits to the working
status; otherwise the pane content is scanned for the `PermissionPrompt`
UI; otherwise a title containing ✋ yields a generic permission prompt;
otherwise no status. -/
def gemini_parse_terminal_status (pane_text : String)
    (pane_title : String) : Option StatusUpdate :=
  if pane_title.data.contains '✦' then
    some { raw_text := "working", display_label := "…working" }
  else
    let action_required := pane_title.data.contains '✋'
    match extract_interactive_content pane_text GEMINI_UI_PATTERNS with
    | some i =>
      some { raw_text := i.content, display_label := i.name,
             is_interactive := true, ui_type := some i.name }
    | none =>
      if action_required then
        some { raw_text := "Action Required",
               display_label := "PermissionPrompt",
               is_interactive := true, ui_type := some "PermissionPrompt" }
      else none

/-- C10: the pane-title working marker ✦ has absolute precedence — for
every pane text, a title containing ✦ yields the non-interactive working
status, even when the text matches the `PermissionPrompt` pattern;
interactive-UI detection is consulted only when the title lacks ✦; and
when neither the title markers nor the UI patterns match, the result is
None. -/
theorem gemini_title_precedence (text title : String) :
    (title.data.contains '✦' = true →
      gemini_parse_terminal_status text title
        = some { raw_text := "working", display_label := "…working",
                 is_interactive := false, ui_type := none }) ∧
    (title.data.contains '✦' = false →
      ∀ i, extract_interactive_content text GEMINI_UI_PATTERNS = some i →
        gemini_parse_terminal_status text title
          = some { raw_text := i.content, display_label := i.name,
                   is_interactive := true, ui_type := some i.name }) ∧
    (title.data.contains '✦' = false → title.data.contains '✋' = false →
      extract_interactive_content text GEMINI_UI_PATTERNS = none →
      gemini_parse_terminal_status text title = none) := by
  refine ⟨?_, ?_, ?_⟩
  · intro h
    unfold gemini_parse_terminal_status
    rw [if_pos h]
  · intro h i hi
    unfold gemini_parse_terminal_status
    rw [if_neg (by rw [h]; exact Bool.false_ne_true)]
    simp only [hi]
  · intro h1 h2 hnone
    unfold gemini_parse_terminal_status
    rw [if_neg (by rw [h1]; exact Bool.false_ne_true)]
    simp only [hnone, h2, Bool.false_eq_true, if_false]

/-- Witness for C10: a concrete pane text that does match the
`PermissionPrompt` pattern, together with the working title `Working: ✦` —
the result is still the working status; with an empty title the same text
yields the interactive prompt; and with blank text and empty title the
result is None. -/
theorem gemini_title_precedence_witness :
    (extract_interactive_content
        (String.intercalate "\n"
          ["Action Required", "? Shell rm -rf /tmp", "Allow execution?",
           "● 1. Allow once", "  4. No, suggest changes (esc"])
        GEMINI_UI_PATTERNS).isSome = true ∧
    gemini_parse_terminal_status
        (String.intercalate "\n"
          ["Action Required", "? Shell rm -rf /tmp", "Allow execution?",
           "● 1. Allow once", "  4. No, suggest changes (esc"])
        "Working: ✦"
      = some { raw_text := "working", display_label := "…working",
               is_interactive := false, ui_type := none } ∧
    gemini_parse_terminal_status "" "" = none := by
  refine ⟨by decide, ?_, ?_⟩
  · exact (gemini_title_precedence _ "Working: ✦").1 (by decide)
  · exact (gemini_title_precedence "" "").2.2 (by decide) (by decide)
      (by decide)

end Ccbot
